import Mathlib

/-!
Shallow embedding of the workstation bootstrap tool (src/src/main.rs).

The tool downloads packages over HTTP, optionally extracts one entry from an
archive (gzip tar or zip), writes the payload to an install location resolved
with home-directory expansion, and marks it executable.  External collaborators
(the HTTP client, the flate2/tar and zip decoders, the filesystem, the home
directory) are modelled as oracles carried in a World structure; the control
flow of the Rust functions download_with_progress, install_package,
get_install_path, install and setup is embedded faithfully, including the
places where the Rust code panics (expect/unwrap) rather than returning an
error.
-/

namespace Workstation

/-- Result of running a fallible Rust computation: a normal value, an
error value propagated with the question-mark operator, or a panic raised
by expect/unwrap. -/
inductive Outcome (α : Type) where
  | ok (a : α)
  | err (e : String)
  | panicked (msg : String)
deriving DecidableEq, Repr

/-- State of one indicatif progress bar, as far as the tool observes it:
its length, current position, whether it was finished, and its message. -/
structure Pb where
  length : Nat
  position : Nat
  finished : Bool
  message : String
deriving DecidableEq, Repr

def pbSetLength (pb : Pb) (n : Nat) : Pb := { pb with length := n }

def pbSetPosition (pb : Pb) (n : Nat) : Pb := { pb with position := n }

def pbFinish (pb : Pb) (m : String) : Pb := { pb with finished := true, message := m }

/-- An HTTP response as observed by download_with_progress: status code,
optional Content-Length, and the result of reading the whole body
(response.bytes), which can fail with an I/O error. -/
structure HttpResponse where
  status : Nat
  contentLength : Option Nat
  body : Except String (List UInt8)

/-- One entry yielded by the entries iterator of the tar crate: reading its path
can fail, the path can be non-UTF-8 (modelled as none), and each byte read
from its content can fail. -/
structure TarEntry where
  path : Except String (Option String)
  content : List (Except String UInt8)

/-- One member of a zip archive: its stored name and the result of reading
its full content. -/
structure ZipEntry where
  name : String
  readResult : Except String (List UInt8)

/-- A file on disk: content bytes and permission mode bits. -/
structure FileSt where
  data : List UInt8
  mode : Nat
deriving DecidableEq, Repr

/-- The filesystem, as a partial map from path to file state. -/
def FS : Type := String → Option FileSt

def fsEmpty : FS := fun _ => none

/-- std fs write: truncate an existing file (its mode is preserved) or
create a new one with the process default creation mode. -/
def fsWrite (fs : FS) (path : String) (d : List UInt8) (createMode : Nat) : FS :=
  fun q =>
    if q = path then
      some ⟨d, match fs path with | some st => st.mode | none => createMode⟩
    else fs q

/-- std fs set_permissions: replace the mode bits of an existing file. -/
def fsChmod (fs : FS) (path : String) (m : Nat) : FS :=
  fun q => if q = path then (fs q).map (fun st => ⟨st.data, m⟩) else fs q

/-- The external world: HTTP transport, the gzip+tar decoder (the result of
Archive.entries over a GzDecoder), the zip decoder (ZipArchive.new), the
home directory of the current user, the default file-creation mode, and fault
oracles telling which paths fail to write or to chmod. -/
structure World where
  net : String → Except String HttpResponse
  gztar : List UInt8 → Except String (List (Except String TarEntry))
  zipOpen : List UInt8 → Except String (List ZipEntry)
  home : String
  createMode : Nat
  writeFails : String → Bool
  chmodFails : String → Bool

/-- Rust str ends_with, as a suffix test on the character sequence. -/
def ends_with (s suffix : String) : Bool :=
  suffix.data.isSuffixOf s.data

/-- The two package shapes of the configuration, mirroring the untagged
PackageConfig enum. -/
inductive PackageConfig where
  | Archive (name bin archive : String)
  | Binary (name url : String)
deriving DecidableEq, Repr

def PackageConfig.name : PackageConfig → String
  | .Archive n _ _ => n
  | .Binary n _ => n

/-- ArchConfig: install location plus the ordered package list. -/
structure ArchConfig where
  location : String
  packages : List PackageConfig

/-- Top-level configuration: one platform table. -/
structure Config where
  linux_x86_64 : ArchConfig

/-- download_with_progress: GET the url, bail on a non-2xx status with a
message naming the url, require a Content-Length, set the bar length, then
iterate over response.bytes().into_iter().  Because bytes() returns a
Result and the iterator of a Result yields nothing on Err, a failed body read
falls through the loop and the function returns ok with an empty buffer. -/
def download_with_progress (net : String → Except String HttpResponse)
    (url : String) (pb : Pb) : Except String (List UInt8) × Pb :=
  match net url with
  | .error e => (.error e, pb)
  | .ok resp =>
    if 200 ≤ resp.status ∧ resp.status ≤ 299 then
      match resp.contentLength with
      | none => (.error "Failed to get content length", pb)
      | some total =>
        let pb1 := pbSetLength pb total
        match resp.body with
        | .error _ => (.ok [], pb1)
        | .ok chunk => (.ok chunk, pbSetPosition pb1 chunk.length)
    else (.error ("Failed to download " ++ url), pb)

/-- The find over the tar entries iterator.  The closure calls expect on
each yielded Result entry, on its path, and on the UTF-8 view of the path, so a
corrupt entry or unreadable path panics; a path equal to bin stops the
scan; exhausting the iterator gives the context-wrapped entry-not-found
error. -/
def tarFind (bin : String) : List (Except String TarEntry) → Outcome TarEntry
  | [] => .err "Searching for entry: Entry not found"
  | .error _ :: _ => .panicked "entry exists"
  | .ok ent :: rest =>
    match ent.path with
    | .error _ => .panicked "entry has path"
    | .ok none => .panicked "entry path is string"
    | .ok (some p) => if p = bin then .ok ent else tarFind bin rest

/-- entry.bytes().map(unwrap).collect(): collect the content bytes of the
matched entry, panicking on the first failed byte read. -/
def readTarData : List (Except String UInt8) → Outcome (List UInt8)
  | [] => .ok []
  | .error _ :: _ => .panicked "called unwrap on an Err value"
  | .ok b :: rest =>
    match readTarData rest with
    | .ok bs => .ok (b :: bs)
    | .err e => .err e
    | .panicked m => .panicked m

/-- The tar branch after decoding: find the entry named bin, then read its
bytes. -/
def tarExtract (bin : String) (entries : List (Except String TarEntry)) :
    Outcome (List UInt8) :=
  match tarFind bin entries with
  | .ok ent => readTarData ent.content
  | .err e => .err e
  | .panicked m => .panicked m

/-- ZipArchive.by_name: exact-name lookup, error when absent. -/
def zipByName (bin : String) : List ZipEntry → Except String ZipEntry
  | [] => .error "specified file not found in archive"
  | e :: rest => if e.name = bin then .ok e else zipByName bin rest

/-- The zip branch after decoding: by_name lookup then read_to_end; both
failures propagate as error values. -/
def zipExtract (bin : String) (entries : List ZipEntry) : Outcome (List UInt8) :=
  match zipByName bin entries with
  | .error e => .err e
  | .ok ent =>
    match ent.readResult with
    | .error e => .err e
    | .ok d => .ok d

/-- The archive dispatch of install_package: choose the container format
from the url suffix, decode with the matching oracle, and extract the entry
named bin; any other suffix bails with the unsupported-format error before
touching either decoder. -/
def extract_entry (w : World) (bytes : List UInt8) (url bin : String) :
    Outcome (List UInt8) :=
  if ends_with url ".tar.gz" then
    match w.gztar bytes with
    | .error e => .err e
    | .ok entries => tarExtract bin entries
  else if ends_with url ".zip" then
    match w.zipOpen bytes with
    | .error e => .err e
    | .ok zs => zipExtract bin zs
  else .err "Unsupported archive format"

/-- PathBuf join: an absolute right-hand side replaces the path, otherwise
a separator is inserted unless the left side is empty or already ends in
one. -/
def pathJoin (loc n : String) : String :=
  if n.data.head? = some '/' then n
  else if loc.data = [] then n
  else if loc.data.getLast? = some '/' then loc ++ n
  else loc ++ "/" ++ n

/-- The expanduser crate: a path that is exactly a tilde becomes the home
directory, a tilde followed by a slash becomes home plus the remainder, a
tilde followed by a user name needs a user-database lookup (modelled as an
error), and any other path is returned unchanged. -/
def expanduser (home p : String) : Except String String :=
  if p.data.head? = some '~' then
    if p.data.tail = [] then .ok home
    else if p.data.tail.head? = some '/' then .ok (home ++ String.mk p.data.tail)
    else .error "failed to resolve user home"
  else .ok p

/-- get_install_path: join the location with the name, then expand a
leading tilde against the home directory of the current user. -/
def get_install_path (home location name : String) : Except String String :=
  expanduser home (pathJoin location name)

/-- install: resolve the destination path, write the payload there
(truncating or creating), then unconditionally set the permission bits to
octal 755.  The filesystem state reached so far is returned next to the
error, so a chmod failure leaves the freshly written file in place. -/
def install (w : World) (fs : FS) (location name : String) (d : List UInt8) :
    Except String Unit × FS :=
  match get_install_path w.home location name with
  | .error e => (.error e, fs)
  | .ok path =>
    if w.writeFails path then (.error ("failed to write " ++ path), fs)
    else
      let fs1 := fsWrite fs path d w.createMode
      if w.chmodFails path then (.error ("failed to set permissions " ++ path), fs1)
      else (.ok (), fsChmod fs1 path 0o755)

/-- install_package: download the source with progress, finish the bar with
a downloaded message, then either extract the named entry from the archive
and install it, or install the raw body directly.  Error values are wrapped
with the same context strings the Rust code attaches; panics from the tar
scan propagate as panics. -/
def install_package (w : World) (fs : FS) (location : String)
    (pkg : PackageConfig) (pb : Pb) : Outcome Unit × Pb × FS :=
  match pkg with
  | .Archive name bin archive =>
    match download_with_progress w.net archive pb with
    | (.error e, pb2) => (.err ("Failed to download " ++ name ++ ": " ++ e), pb2, fs)
    | (.ok bytes, pb2) =>
      let pb3 := pbFinish pb2 ("Downloaded " ++ name)
      match extract_entry w bytes archive bin with
      | .panicked m => (.panicked m, pb3, fs)
      | .err e => (.err e, pb3, fs)
      | .ok d =>
        match install w fs location name d with
        | (.error e, fs2) => (.err ("Installing: " ++ e), pb3, fs2)
        | (.ok _, fs2) => (.ok (), pb3, fs2)
  | .Binary name url =>
    match download_with_progress w.net url pb with
    | (.error e, pb2) => (.err ("Downloading: " ++ e), pb2, fs)
    | (.ok bytes, pb2) =>
      let pb3 := pbFinish pb2 ("Downloaded " ++ name)
      match install w fs location name bytes with
      | (.error e, fs2) => (.err ("Installing: " ++ e), pb3, fs2)
      | (.ok _, fs2) => (.ok (), pb3, fs2)

/-- The progress bar a unit starts with: setup sets the installing message
before spawning the thread. -/
def pbInit (name : String) : Pb := ⟨0, 0, false, "Installing " ++ name⟩

/-- The outcome and final bar state of the pipeline of one package.  The result
never depends on the shared filesystem contents, so the unit is evaluated
against the empty filesystem. -/
def unitOutcome (w : World) (loc : String) (pkg : PackageConfig) :
    Outcome Unit × Pb :=
  let r := install_package w fsEmpty loc pkg (pbInit pkg.name)
  (r.1, r.2.1)

/-- How one spawned thread ends: it either returns normally (with the bar
in some final state) or it panics, which its join handle will report. -/
inductive UnitResult where
  | done (pb : Pb)
  | panicked (msg : String)
deriving DecidableEq, Repr

def UnitResult.pbOf : UnitResult → Pb
  | .done pb => pb
  | .panicked m => ⟨0, 0, false, m⟩

/-- The closure setup spawns for one package: run install_package wrapped
with an installing context; on an error value, finish the bar with the
error message.  A panic escapes the closure and kills the thread. -/
def unitRun (w : World) (loc : String) (pkg : PackageConfig) : UnitResult :=
  match unitOutcome w loc pkg with
  | (.ok _, pb) => .done pb
  | (.err e, pb) =>
    .done (pbFinish pb
      ("Error installing " ++ pkg.name ++ ": Installing " ++ pkg.name ++ ": " ++ e))
  | (.panicked m, _) => .panicked m

/-- What the whole setup run produces: either every unit was joined and
reports a final bar state, or some unit panicked and the main-thread
join-then-unwrap re-raised that panic, aborting the process after having
joined only the units before it. -/
inductive SetupResult where
  | done (reports : List Pb)
  | panicked (joined : List Pb) (msg : String)
deriving DecidableEq, Repr

/-- The join loop of setup: handles are joined in spawn order; a panicked
thread makes join return an error which setup unwraps, panicking the main
thread and skipping the remaining joins. -/
def joinAll : List UnitResult → SetupResult
  | [] => .done []
  | .done pb :: rest =>
    match joinAll rest with
    | .done l => .done (pb :: l)
    | .panicked l m => .panicked (pb :: l) m
  | .panicked m :: _ => .panicked [] m

/-- setup: spawn one unit per package of the platform table, then join all
handles in order. -/
def setup (w : World) (cfg : Config) : SetupResult :=
  joinAll (cfg.linux_x86_64.packages.map
    (unitRun w cfg.linux_x86_64.location))

/-- Field lookup in a decoded configuration table. -/
def lookupField : List (String × String) → String → Option String
  | [], _ => none
  | (k, v) :: rest, key => if k = key then some v else lookupField rest key

/-- The Archive shape: present name, bin and archive fields; unknown fields
are ignored. -/
def decodeArchive (o : List (String × String)) : Option PackageConfig :=
  match lookupField o "name", lookupField o "bin", lookupField o "archive" with
  | some n, some b, some a => some (.Archive n b a)
  | _, _, _ => none

/-- The Binary shape: present name and url fields; unknown fields are
ignored. -/
def decodeBinary (o : List (String × String)) : Option PackageConfig :=
  match lookupField o "name", lookupField o "url" with
  | some n, some u => some (.Binary n u)
  | _, _ => none

/-- serde untagged decoding of PackageConfig: the variants are tried in
declaration order, Archive first, and the first that matches wins. -/
def decodePackageConfig (o : List (String × String)) : Option PackageConfig :=
  match decodeArchive o with
  | some p => some p
  | none => decodeBinary o

/-- A well-formed tar entry used to state extraction correctness: a
readable UTF-8 path and fully readable content. -/
structure SimpleEntry where
  path : String
  content : List UInt8
deriving DecidableEq, Repr

/-- Injection of a well-formed entry into the raw tar-entry model. -/
def SimpleEntry.toRaw (e : SimpleEntry) : Except String TarEntry :=
  .ok ⟨.ok (some e.path), e.content.map Except.ok⟩

/-- Whether a thread ended in a panic. -/
def UnitResult.isPanicked : UnitResult → Bool
  | .done _ => false
  | .panicked _ => true

/-! Helper lemmas. -/

theorem string_data_inj {s t : String} (h : s.data = t.data) : s = t := by
  cases s; cases t; exact congrArg String.mk h

theorem readTarData_map_ok (xs : List UInt8) :
    readTarData (xs.map Except.ok) = .ok xs := by
  induction xs with
  | nil => rfl
  | cons x xs ih => simp [readTarData, ih]

theorem joinAll_done (rs : List UnitResult)
    (h : ∀ r ∈ rs, r.isPanicked = false) :
    joinAll rs = .done (rs.map UnitResult.pbOf) := by
  induction rs with
  | nil => rfl
  | cons r rest ih =>
    cases r with
    | done pb =>
      have hrest : ∀ r ∈ rest, r.isPanicked = false := fun r hr => h r (by simp [hr])
      simp [joinAll, ih hrest, UnitResult.pbOf]
    | panicked m =>
      have := h (.panicked m) (by simp)
      simp [UnitResult.isPanicked] at this

/-! Test fixtures: concrete worlds and configurations used by the closed
theorems below. -/

/-- A transport that always answers with status 200, a declared length of
four bytes, and a body whose read fails with an I/O error. -/
def netBodyErr : String → Except String HttpResponse :=
  fun _ => .ok ⟨200, some 4, .error "connection reset by peer"⟩

/-- A transport that always answers 404. -/
def net404 : String → Except String HttpResponse :=
  fun _ => .ok ⟨404, some 3, .ok [1, 2, 3]⟩

/-- A world whose downloads succeed with a one-byte body but whose gzip tar
decoder yields one corrupt entry: the entries iterator produces a single
Err item, as the tar crate does on a truncated or malformed stream. -/
def wCorruptTar : World where
  net := fun _ => .ok ⟨200, some 1, .ok [9]⟩
  gztar := fun _ => .ok [.error "unexpected end of file"]
  zipOpen := fun _ => .ok []
  home := "/home/u"
  createMode := 0o644
  writeFails := fun _ => false
  chmodFails := fun _ => false

/-- A configuration with a single tar.gz archive package. -/
def cfgCorrupt : Config := ⟨⟨"~/bin", [.Archive "t" "bin/t" "http://h/t.tar.gz"]⟩⟩

/-! Claims. -/

/-- C1: the claim says an I/O error while reading the response body makes
the fetch return an error rather than a partial or empty buffer as
success.  The code iterates over the Result returned by response.bytes,
whose iterator yields nothing on Err, so a failed body read falls out of
the loop and the function returns ok with an empty buffer: at a response
with status 200, a declared content length of 4, and a failing body read,
download_with_progress returns ok with the empty byte list. -/
theorem download_body_error_yields_ok_empty :
    download_with_progress netBodyErr "http://h/tool" (pbInit "tool") =
      (.ok [], ⟨4, 0, false, "Installing " ++ "tool"⟩) := by
  rfl

/-- C8: when the response arrives but its status is not in the 2xx range,
download_with_progress fails with an error whose message is the string
Failed to download followed by the requested url, and no byte buffer is
returned; the progress bar is left untouched. -/
theorem download_non_success_status_errors_with_url
    (net : String → Except String HttpResponse) (url : String) (pb : Pb)
    (resp : HttpResponse) (hnet : net url = .ok resp)
    (hst : ¬ (200 ≤ resp.status ∧ resp.status ≤ 299)) :
    download_with_progress net url pb =
      (.error ("Failed to download " ++ url), pb) := by
  unfold download_with_progress
  rw [hnet]
  simp [hst]

theorem download_non_success_status_errors_with_url_witness :
    download_with_progress net404 "http://h/t" (pbInit "t") =
      (.error ("Failed to download " ++ "http://h/t"), pbInit "t") :=
  download_non_success_status_errors_with_url net404 "http://h/t" (pbInit "t")
    ⟨404, some 3, .ok [1, 2, 3]⟩ rfl (by decide)

/-- C10: untagged decoding tries the Archive shape first, so an object
carrying name, bin and archive fields decodes as an Archive package no
matter what other fields (such as url) it carries, and is never rejected
as ambiguous; an object matching neither shape (some Archive field absent,
and name or url absent) fails decoding. -/
theorem untagged_decode_archive_first (o : List (String × String)) :
    (∀ n b a, lookupField o "name" = some n → lookupField o "bin" = some b →
      lookupField o "archive" = some a →
      decodePackageConfig o = some (.Archive n b a))
    ∧ ((lookupField o "name" = none ∨ lookupField o "bin" = none ∨
          lookupField o "archive" = none) →
       (lookupField o "name" = none ∨ lookupField o "url" = none) →
       decodePackageConfig o = none) := by
  constructor
  · intro n b a hn hb ha
    simp [decodePackageConfig, decodeArchive, hn, hb, ha]
  · intro h1 h2
    unfold decodePackageConfig decodeArchive decodeBinary
    cases hn : lookupField o "name" <;>
      cases hb : lookupField o "bin" <;>
        cases ha : lookupField o "archive" <;>
          cases hu : lookupField o "url" <;>
            simp_all

theorem untagged_decode_archive_first_witness :
    decodePackageConfig
        [("name", "rg"), ("bin", "rg/rg"), ("archive", "http://h/rg.tar.gz"),
          ("url", "http://h/rg")] =
      some (.Archive "rg" "rg/rg" "http://h/rg.tar.gz")
    ∧ decodePackageConfig [("name", "rg")] = none :=
  ⟨(untagged_decode_archive_first _).1 "rg" "rg/rg" "http://h/rg.tar.gz"
      (by decide) (by decide) (by decide),
   (untagged_decode_archive_first [("name", "rg")]).2
      (Or.inr (Or.inl (by decide))) (Or.inr (by decide))⟩

/-- C2 counterexample: the claim says every malformed-archive or
decompression error during extraction comes back as an error value, never
as a panic.  In the tar path the entry scan calls expect on each yielded
Result, so when the decoder produces a corrupt entry mid-stream (as the
tar crate does on a truncated or malformed stream) extraction panics
instead of returning an error: at the concrete corrupt-tar world the
result is the panicked outcome. -/
theorem tar_corrupt_entry_panics :
    extract_entry wCorruptTar [9] "http://h/t.tar.gz" "bin/t" =
      .panicked "entry exists" := by
  rfl

/-- C2 amended: errors raised while opening the archive stream are
returned as error values, namely a failure of the tar entries call, a
failure opening the zip central directory, and a failure reading a zip
entry after its by-name lookup; but a corrupt entry encountered during
the tar scan panics (see the counterexample). -/
theorem archive_open_and_zip_errors_are_error_values (w : World)
    (bytes : List UInt8) (url bin : String) :
    (∀ e, ends_with url ".tar.gz" = true → w.gztar bytes = .error e →
      extract_entry w bytes url bin = .err e)
    ∧ (∀ e, ends_with url ".tar.gz" = false → ends_with url ".zip" = true →
      w.zipOpen bytes = .error e → extract_entry w bytes url bin = .err e)
    ∧ (∀ zs ent e, ends_with url ".tar.gz" = false →
      ends_with url ".zip" = true → w.zipOpen bytes = .ok zs →
      zipByName bin zs = .ok ent → ent.readResult = .error e →
      extract_entry w bytes url bin = .err e) := by
  refine ⟨?_, ?_, ?_⟩
  · intro e ht hg
    simp [extract_entry, ht, hg]
  · intro e ht hz hzo
    simp [extract_entry, ht, hz, hzo]
  · intro zs ent e ht hz hzo hbn hrr
    simp [extract_entry, ht, hz, hzo, zipExtract, hbn, hrr]

/-- A world whose gzip tar decoder fails outright when opening the
stream. -/
def wGzOpenErr : World where
  net := fun _ => .ok ⟨200, some 1, .ok [9]⟩
  gztar := fun _ => .error "corrupt gzip header"
  zipOpen := fun _ => .ok []
  home := "/home/u"
  createMode := 0o644
  writeFails := fun _ => false
  chmodFails := fun _ => false

/-- A world whose zip archive opens but whose single entry fails to
read. -/
def wZipReadErr : World where
  net := fun _ => .ok ⟨200, some 1, .ok [9]⟩
  gztar := fun _ => .ok []
  zipOpen := fun _ => .ok [⟨"bin/t", .error "invalid checksum"⟩]
  home := "/home/u"
  createMode := 0o644
  writeFails := fun _ => false
  chmodFails := fun _ => false

theorem archive_open_and_zip_errors_are_error_values_witness :
    extract_entry wGzOpenErr [9] "http://h/t.tar.gz" "bin/t" =
      .err "corrupt gzip header"
    ∧ extract_entry wZipReadErr [9] "http://h/t.zip" "bin/t" =
      .err "invalid checksum" :=
  ⟨(archive_open_and_zip_errors_are_error_values wGzOpenErr [9]
      "http://h/t.tar.gz" "bin/t").1 "corrupt gzip header" (by decide) rfl,
   (archive_open_and_zip_errors_are_error_values wZipReadErr [9]
      "http://h/t.zip" "bin/t").2.2 [⟨"bin/t", .error "invalid checksum"⟩]
      ⟨"bin/t", .error "invalid checksum"⟩ "invalid checksum"
      (by decide) (by decide) rfl (by simp [zipByName]) rfl⟩

/-- The tar scan over injected well-formed entries returns the first exact
match of the requested name, or the context-wrapped entry-not-found
error. -/
theorem tarFind_map_toRaw (bin : String) (l : List SimpleEntry) :
    tarFind bin (l.map SimpleEntry.toRaw) =
      (match l.find? (fun en => en.path == bin) with
       | some fnd => .ok ⟨.ok (some fnd.path), fnd.content.map Except.ok⟩
       | none => .err "Searching for entry: Entry not found") := by
  induction l with
  | nil => rfl
  | cons e rest ih =>
    by_cases hp : e.path = bin
    · simp [tarFind, SimpleEntry.toRaw, List.find?_cons, hp]
    · simp [tarFind, SimpleEntry.toRaw, List.find?_cons, hp, ih]

/-- C4: on a well-formed gzip tar archive, extraction scans the entries in
stored order and returns the content of the first entry whose path equals
the requested name by exact string comparison; when no entry matches
exactly the result is the entry-not-found error, never a fallback to some
other entry. -/
theorem tar_extract_first_exact_match (bin : String) (l : List SimpleEntry) :
    (∀ fnd, l.find? (fun en => en.path == bin) = some fnd →
      tarExtract bin (l.map SimpleEntry.toRaw) = .ok fnd.content)
    ∧ (l.find? (fun en => en.path == bin) = none →
      tarExtract bin (l.map SimpleEntry.toRaw) =
        .err "Searching for entry: Entry not found") := by
  constructor
  · intro fnd hf
    unfold tarExtract
    rw [tarFind_map_toRaw, hf]
    exact readTarData_map_ok fnd.content
  · intro hf
    unfold tarExtract
    rw [tarFind_map_toRaw, hf]

/-- An archive fixture: an entry whose path merely has the requested name
as a suffix comes first, then two entries named foo in stored order. -/
def tarFixture : List SimpleEntry :=
  [⟨"bin/foo", [1, 2]⟩, ⟨"foo", [3]⟩, ⟨"foo", [4]⟩]

theorem tar_extract_first_exact_match_witness :
    tarExtract "foo" (tarFixture.map SimpleEntry.toRaw) = .ok [3]
    ∧ tarExtract "foo.bin" (tarFixture.map SimpleEntry.toRaw) =
        .err "Searching for entry: Entry not found" :=
  ⟨(tar_extract_first_exact_match "foo" tarFixture).1 ⟨"foo", [3]⟩ (by decide),
   (tar_extract_first_exact_match "foo.bin" tarFixture).2 (by decide)⟩

/-- C5: for an archive package whose download succeeded, the container
format is chosen solely from the url suffix: a url ending in .tar.gz goes
to the gzip tar decoder, a url ending in .zip goes to the zip decoder, and
any other suffix makes install_package fail with the unsupported-format
error, with neither decoder consulted (the conclusion holds for every
world, whatever its decoders answer) and the filesystem untouched. -/
theorem container_kind_from_url_suffix (w : World) (fs : FS) (loc : String)
    (bytes : List UInt8) (name bin url : String) (pb pb2 : Pb)
    (hdl : download_with_progress w.net url pb = (.ok bytes, pb2)) :
    (ends_with url ".tar.gz" = true →
      extract_entry w bytes url bin =
        (match w.gztar bytes with
         | .error e => Outcome.err e
         | .ok entries => tarExtract bin entries))
    ∧ (ends_with url ".tar.gz" = false → ends_with url ".zip" = true →
      extract_entry w bytes url bin =
        (match w.zipOpen bytes with
         | .error e => Outcome.err e
         | .ok zs => zipExtract bin zs))
    ∧ (ends_with url ".tar.gz" = false → ends_with url ".zip" = false →
      install_package w fs loc (.Archive name bin url) pb =
        (.err "Unsupported archive format",
          pbFinish pb2 ("Downloaded " ++ name), fs)) := by
  refine ⟨?_, ?_, ?_⟩
  · intro ht
    simp [extract_entry, ht]
  · intro ht hz
    simp [extract_entry, ht, hz]
  · intro ht hz
    simp only [install_package]
    rw [hdl]
    simp [extract_entry, ht, hz]

/-- A world serving a one-byte payload for every url. -/
def wOneByte : World where
  net := fun _ => .ok ⟨200, some 1, .ok [7]⟩
  gztar := fun _ => .ok []
  zipOpen := fun _ => .ok []
  home := "/home/u"
  createMode := 0o644
  writeFails := fun _ => false
  chmodFails := fun _ => false

theorem container_kind_from_url_suffix_witness :
    install_package wOneByte fsEmpty "~/bin" (.Archive "t" "b" "http://h/p.rar")
        (pbInit "t") =
      (.err "Unsupported archive format",
        pbFinish ⟨1, 1, false, "Installing " ++ "t"⟩ ("Downloaded " ++ "t"),
        fsEmpty) :=
  (container_kind_from_url_suffix wOneByte fsEmpty "~/bin" [7] "t" "b"
      "http://h/p.rar" (pbInit "t") ⟨1, 1, false, "Installing " ++ "t"⟩
      rfl).2.2 (by decide) (by decide)

/-- C6: joining a location that is a tilde or starts with tilde-slash with
a relative name and expanding the home directory yields the home directory
followed by the remainder of the location followed by a separator and the
name, whatever the name and independent of any package content. -/
theorem get_install_path_expands_home (home rest name : String)
    (hr : rest = "" ∨ ∃ r, rest = "/" ++ r)
    (hlast : rest.data.getLast? ≠ some '/')
    (hname : name.data.head? ≠ some '/') :
    get_install_path home ("~" ++ rest) name =
      .ok (home ++ rest ++ "/" ++ name) := by
  have hdata : ∀ s t : String, (s ++ t).data = s.data ++ t.data := by
    intro s t
    cases s; cases t; rfl
  have hloc : ("~" ++ rest).data = '~' :: rest.data := by
    rw [hdata]; rfl
  have hlocne : ("~" ++ rest).data ≠ [] := by simp [hloc]
  have hloclast : ("~" ++ rest).data.getLast? ≠ some '/' := by
    rw [hloc]
    cases hrd : rest.data with
    | nil => simp
    | cons c cs =>
      rw [List.getLast?_cons_cons]
      rw [hrd] at hlast
      exact hlast
  have hjoin : pathJoin ("~" ++ rest) name = ("~" ++ rest) ++ "/" ++ name := by
    unfold pathJoin
    rw [if_neg hname, if_neg hlocne, if_neg hloclast]
  have hp : (("~" ++ rest) ++ "/" ++ name).data =
      '~' :: (rest.data ++ '/' :: name.data) := by
    rw [hdata, hdata, hloc]
    simp
  unfold get_install_path
  rw [hjoin]
  unfold expanduser
  rw [hp]
  have htailhead : (rest.data ++ '/' :: name.data).head? = some '/' := by
    rcases hr with h | ⟨r, h⟩
    · subst h; simp
    · subst h
      rw [hdata]
      rfl
  have htailne : (rest.data ++ '/' :: name.data) ≠ [] := by
    intro hcontra
    exact List.cons_ne_nil _ _ (List.append_eq_nil.mp hcontra).2
  simp only [List.head?_cons, List.tail_cons, Option.some.injEq, if_pos rfl]
  rw [if_neg htailne, if_pos htailhead]
  refine congrArg Except.ok (string_data_inj ?_)
  rw [hdata, hdata, hdata, hdata]
  simp

theorem get_install_path_expands_home_witness :
    get_install_path "/Users/jurajpetras" ("~" ++ "/.local/bin") "test" =
      .ok ("/Users/jurajpetras" ++ "/.local/bin" ++ "/" ++ "test") :=
  get_install_path_expands_home "/Users/jurajpetras" "/.local/bin" "test"
    (Or.inr ⟨".local/bin", by decide⟩) (by decide) (by decide)

/-- C7: when the destination path resolves and neither the write nor the
chmod fails there, installing the same payload twice succeeds both times,
the destination holds exactly the payload bytes after each install, and
the permission bits are octal 755 after each install, whatever the prior
contents, mode or existence of the file (the initial filesystem is
arbitrary). -/
theorem install_idempotent_sets_exec_mode (w : World) (fs : FS)
    (location name path : String) (d : List UInt8)
    (hp : get_install_path w.home location name = .ok path)
    (hw : w.writeFails path = false) (hc : w.chmodFails path = false) :
    ∃ fs1 fs2,
      install w fs location name d = (.ok (), fs1)
      ∧ fs1 path = some ⟨d, 0o755⟩
      ∧ install w fs1 location name d = (.ok (), fs2)
      ∧ fs2 path = some ⟨d, 0o755⟩ := by
  have hstep : ∀ g : FS, install w g location name d =
      (.ok (), fsChmod (fsWrite g path d w.createMode) path 0o755) := by
    intro g
    simp [install, hp, hw, hc]
  refine ⟨fsChmod (fsWrite fs path d w.createMode) path 0o755,
    fsChmod (fsWrite (fsChmod (fsWrite fs path d w.createMode) path 0o755)
      path d w.createMode) path 0o755,
    hstep fs, ?_, hstep _, ?_⟩ <;>
    simp [fsWrite, fsChmod]

/-- A world with no filesystem faults, used for the install witnesses. -/
def wNoFault : World where
  net := fun _ => .ok ⟨200, some 1, .ok [7]⟩
  gztar := fun _ => .ok []
  zipOpen := fun _ => .ok []
  home := "/home/u"
  createMode := 0o644
  writeFails := fun _ => false
  chmodFails := fun _ => false

/-- A filesystem where the destination already exists with a read-only
mode and different content. -/
def fsPrior : FS :=
  fun q => if q = "/home/u/bin/t" then some ⟨[0], 0o600⟩ else none

theorem install_idempotent_sets_exec_mode_witness :
    ∃ fs1 fs2,
      install wNoFault fsPrior "~/bin" "t" [7, 8] = (.ok (), fs1)
      ∧ fs1 "/home/u/bin/t" = some ⟨[7, 8], 0o755⟩
      ∧ install wNoFault fs1 "~/bin" "t" [7, 8] = (.ok (), fs2)
      ∧ fs2 "/home/u/bin/t" = some ⟨[7, 8], 0o755⟩ :=
  install_idempotent_sets_exec_mode wNoFault fsPrior "~/bin" "t"
    "/home/u/bin/t" [7, 8] rfl rfl rfl

/-- A world identical to the no-fault one except that every chmod
fails. -/
def wChmodFail : World where
  net := fun _ => .ok ⟨200, some 1, .ok [7]⟩
  gztar := fun _ => .ok []
  zipOpen := fun _ => .ok []
  home := "/home/u"
  createMode := 0o644
  writeFails := fun _ => false
  chmodFails := fun _ => true

/-- A filesystem where the destination already exists as an executable
installed earlier. -/
def fsPriorExec : FS :=
  fun q => if q = "/home/u/bin/t" then some ⟨[0, 1], 0o755⟩ else none

/-- C9 counterexample: the claim says that when the write succeeds and the
chmod fails, the destination has been overwritten with the new payload and
lacks executable permissions.  Reinstalling over a previously installed
executable, install does return an error and the file does hold the new
payload, but the write kept the prior mode octal 755, whose low bit (the
other-execute bit) is set, so the file does not lack executable
permissions. -/
theorem install_chmod_failure_keeps_prior_exec_mode :
    (install wChmodFail fsPriorExec "~/bin" "t" [7, 8]).1 =
      .error ("failed to set permissions " ++ "/home/u/bin/t")
    ∧ (install wChmodFail fsPriorExec "~/bin" "t" [7, 8]).2 "/home/u/bin/t" =
      some ⟨[7, 8], 0o755⟩
    ∧ 0o755 % 2 = 1 := by
  refine ⟨?_, ?_, rfl⟩ <;> rfl

/-- C9 amended: when the write succeeds and the chmod fails, install
returns an error while the destination has already been overwritten with
the new payload, and the file keeps whatever permission bits the write
left in place: the prior mode when the file existed, the default creation
mode otherwise (so it lacks executable permission exactly when those bits
do); nothing is rolled back. -/
theorem install_not_atomic_on_chmod_failure (w : World) (fs : FS)
    (location name path : String) (d : List UInt8)
    (hp : get_install_path w.home location name = .ok path)
    (hw : w.writeFails path = false) (hc : w.chmodFails path = true) :
    install w fs location name d =
      (.error ("failed to set permissions " ++ path),
        fsWrite fs path d w.createMode)
    ∧ (fsWrite fs path d w.createMode) path =
      some ⟨d, match fs path with | some st => st.mode | none => w.createMode⟩ := by
  constructor
  · simp [install, hp, hw, hc]
  · simp [fsWrite]

theorem install_not_atomic_on_chmod_failure_witness :
    install wChmodFail fsEmpty "~/bin" "t" [7, 8] =
      (.error ("failed to set permissions " ++ "/home/u/bin/t"),
        fsWrite fsEmpty "/home/u/bin/t" [7, 8] 0o644)
    ∧ (fsWrite fsEmpty "/home/u/bin/t" [7, 8] 0o644) "/home/u/bin/t" =
      some ⟨[7, 8], 0o644⟩ :=
  install_not_atomic_on_chmod_failure wChmodFail fsEmpty "~/bin" "t"
    "/home/u/bin/t" [7, 8] rfl rfl rfl

/-- C3 counterexample: the claim says no per-package error makes the
overall process fail and that the orchestrator still joins every unit.
A unit whose pipeline panics (here a corrupt tar entry encountered during
the scan) is not caught by the unit boundary, which only matches on the
Result; the join-then-unwrap in setup re-raises the panic, so at the
concrete one-package configuration setup aborts with a panic, its bar
never finalized and no unit joined. -/
theorem setup_panics_on_corrupt_tar_unit :
    setup wCorruptTar cfgCorrupt = .panicked [] "entry exists" := by
  rfl

/-- C3 amended: when no unit panics, every error value arising in one
package pipeline is caught at that unit boundary and turned into a
terminal bar message naming the package and the error; setup joins every
unit and returns one report per package, and each report is a function of
that package alone, so no package affects another.  A unit that panics
(for example on a corrupt tar entry) instead aborts the whole run at its
join. -/
theorem setup_joins_and_isolates_err_failures (w : World) (cfg : Config)
    (h : ∀ pkg ∈ cfg.linux_x86_64.packages,
      (unitRun w cfg.linux_x86_64.location pkg).isPanicked = false) :
    setup w cfg =
      .done (cfg.linux_x86_64.packages.map
        (fun pkg => (unitRun w cfg.linux_x86_64.location pkg).pbOf))
    ∧ ∀ pkg ∈ cfg.linux_x86_64.packages, ∀ e pb,
        unitOutcome w cfg.linux_x86_64.location pkg = (.err e, pb) →
        unitRun w cfg.linux_x86_64.location pkg =
          .done (pbFinish pb ("Error installing " ++ pkg.name ++
            ": Installing " ++ pkg.name ++ ": " ++ e)) := by
  constructor
  · unfold setup
    rw [joinAll_done]
    · rw [List.map_map]
      rfl
    · intro r hr
      rcases List.mem_map.mp hr with ⟨pkg, hpkg, hrw⟩
      rw [← hrw]
      exact h pkg hpkg
  · intro pkg _ e pb hout
    unfold unitRun
    rw [hout]

/-- A world for the isolation witness: the url of the good package serves
a two-byte body, every other url answers 404. -/
def wIso : World where
  net := fun u =>
    if u = "http://h/good" then .ok ⟨200, some 2, .ok [1, 2]⟩
    else .ok ⟨404, some 0, .ok []⟩
  gztar := fun _ => .ok []
  zipOpen := fun _ => .ok []
  home := "/home/u"
  createMode := 0o644
  writeFails := fun _ => false
  chmodFails := fun _ => false

/-- Two binary packages: the first installs, the second hits a 404. -/
def cfgIso : Config :=
  ⟨⟨"~/bin", [.Binary "good" "http://h/good", .Binary "bad" "http://h/bad"]⟩⟩

theorem setup_joins_and_isolates_err_failures_witness :
    setup wIso cfgIso =
      .done (cfgIso.linux_x86_64.packages.map
        (fun pkg => (unitRun wIso cfgIso.linux_x86_64.location pkg).pbOf)) :=
  (setup_joins_and_isolates_err_failures wIso cfgIso (by decide)).1

end Workstation
